import Mathlib

/-!
Shallow embedding of the withdrawal-lifecycle engine
(src/bot/models.py, src/bot/storage.py, src/bot/manager.py, src/bot/wallet.py).

The SQLite table of `WithdrawalStore` is modelled as a list of rows plus an
auto-increment counter; each store operation takes the current clock value
`now : Nat` (the store assigns timestamps at the moment of the write).
Exceptions become `Except` results, Python `None` becomes `Option.none`.
-/

/-- `WithdrawalStatus` from models.py: lifecycle states of a withdrawal request. -/
inductive WithdrawalStatus where
  | pending
  | processing
  | approved
  | rejected
  | failed
deriving DecidableEq, Repr

/-- `WithdrawalRequest` from models.py.  `amount` is kept as its exact decimal
string (the store persists `str(amount)` in a TEXT column); timestamps are
abstract clock values; `metadata` is an opaque key-value mapping. -/
structure WithdrawalRequest where
  id : Nat
  player_name : String
  player_uuid : Option String
  wallet_address : String
  amount : String
  currency : String
  status : WithdrawalStatus
  created_at : Nat
  updated_at : Nat
  metadata : List (String × String)
  discord_message_id : Option Int
  approved_by : Option String
  approved_by_id : Option Int
  transaction_id : Option String
  failure_reason : Option String
deriving DecidableEq, Repr

/-- Errors raised by `WithdrawalStore` (storage.py):
`WithdrawalNotFoundError` and `WithdrawalStateError` (the latter names the
offending current status, as the formatted message does). -/
inductive StoreError where
  | notFound (request_id : Nat)
  | invalidState (request_id : Nat) (current : WithdrawalStatus)
deriving DecidableEq, Repr

/-- The persisted state of `WithdrawalStore`: the `withdrawals` table in
insertion order plus the AUTOINCREMENT counter (SQLite assigns ids 1, 2, ...). -/
structure StoreState where
  rows : List WithdrawalRequest
  nextId : Nat
deriving DecidableEq, Repr

/-- Decidable equality for `Except` outcomes, for concrete evaluation. -/
instance exceptDecEq {e a : Type} [DecidableEq e] [DecidableEq a] :
    DecidableEq (Except e a) := fun x y =>
  match x, y with
  | .ok u, .ok v =>
    if h : u = v then .isTrue (by rw [h]) else .isFalse (fun hc => h (by cases hc; rfl))
  | .error u, .error v =>
    if h : u = v then .isTrue (by rw [h]) else .isFalse (fun hc => h (by cases hc; rfl))
  | .ok _, .error _ => .isFalse (fun hc => Except.noConfusion hc)
  | .error _, .ok _ => .isFalse (fun hc => Except.noConfusion hc)

/-- A fresh store: empty table, first id is 1. -/
def initialState : StoreState := { rows := [], nextId := 1 }

/-- `WithdrawalStore._get_row` on a bare row list: first row matching the id
(`SELECT * FROM withdrawals WHERE id = ?` + `fetchone`). -/
def findRid (rows : List WithdrawalRequest) (rid : Nat) : Option WithdrawalRequest :=
  rows.find? (fun r => r.id == rid)

/-- `WithdrawalStore._get_row`. -/
def getRow (s : StoreState) (rid : Nat) : Option WithdrawalRequest :=
  findRid s.rows rid

/-- `WithdrawalStore._update_row`: `UPDATE withdrawals SET fields, updated_at = now
WHERE id = ?`; raises `WithdrawalNotFoundError` when no row matched (rowcount 0),
then re-reads the row.  `upd` applies the requested field assignments. -/
def updateRow (s : StoreState) (now : Nat) (rid : Nat)
    (upd : WithdrawalRequest → WithdrawalRequest) :
    Except StoreError (WithdrawalRequest × StoreState) :=
  if s.rows.any (fun r => r.id == rid) then
    match findRid (s.rows.map (fun r => if r.id == rid then { upd r with updated_at := now } else r)) rid with
    | some r =>
      .ok (r, { s with rows := s.rows.map (fun r => if r.id == rid then { upd r with updated_at := now } else r) })
    | none => .error (.notFound rid)
  else .error (.notFound rid)

/-- `WithdrawalStore.create_request`: inserts a row with status `pending`, both
timestamps set to now, all optional columns NULL, then re-reads the inserted row
by `cursor.lastrowid` (`_insert_row`). -/
def create_request (s : StoreState) (now : Nat)
    (player_name : String) (player_uuid : Option String)
    (wallet_address : String) (amount : String) (currency : String)
    (metadata : List (String × String)) :
    Option WithdrawalRequest × StoreState :=
  let newRow : WithdrawalRequest :=
    { id := s.nextId
      player_name := player_name
      player_uuid := player_uuid
      wallet_address := wallet_address
      amount := amount
      currency := currency
      status := .pending
      created_at := now
      updated_at := now
      metadata := metadata
      discord_message_id := none
      approved_by := none
      approved_by_id := none
      transaction_id := none
      failure_reason := none }
  let newRows := s.rows ++ [newRow]
  (findRid newRows s.nextId, { rows := newRows, nextId := s.nextId + 1 })

/-- `WithdrawalStore.set_discord_message`: a bare `_update_row` setting only
`discord_message_id` (plus the implicit `updated_at`). -/
def set_discord_message (s : StoreState) (now : Nat) (rid : Nat) (message_id : Int) :
    Except StoreError (WithdrawalRequest × StoreState) :=
  updateRow s now rid (fun r => { r with discord_message_id := some message_id })

/-- `WithdrawalStore.mark_processing`: requires current status `pending`,
otherwise `WithdrawalStateError`; sets status `processing`. -/
def mark_processing (s : StoreState) (now : Nat) (rid : Nat) :
    Except StoreError (WithdrawalRequest × StoreState) :=
  match getRow s rid with
  | none => .error (.notFound rid)
  | some model =>
    if model.status = .pending then
      updateRow s now rid (fun r => { r with status := .processing })
    else .error (.invalidState rid model.status)

/-- `WithdrawalStore.mark_approved`: requires current status `pending` or
`processing`; sets status `approved`, records the actor and the transaction id,
and clears any prior failure reason. -/
def mark_approved (s : StoreState) (now : Nat) (rid : Nat)
    (admin_name : String) (admin_id : Int) (transaction_id : String) :
    Except StoreError (WithdrawalRequest × StoreState) :=
  match getRow s rid with
  | none => .error (.notFound rid)
  | some model =>
    if model.status = .pending ∨ model.status = .processing then
      updateRow s now rid (fun r =>
        { r with
          status := .approved
          approved_by := some admin_name
          approved_by_id := some admin_id
          transaction_id := some transaction_id
          failure_reason := none })
    else .error (.invalidState rid model.status)

/-- `WithdrawalStore.mark_rejected`: requires current status `pending` or
`processing`; sets status `rejected`, records the actor and the reason. -/
def mark_rejected (s : StoreState) (now : Nat) (rid : Nat)
    (admin_name : String) (admin_id : Int) (reason : Option String) :
    Except StoreError (WithdrawalRequest × StoreState) :=
  match getRow s rid with
  | none => .error (.notFound rid)
  | some model =>
    if model.status = .pending ∨ model.status = .processing then
      updateRow s now rid (fun r =>
        { r with
          status := .rejected
          approved_by := some admin_name
          approved_by_id := some admin_id
          failure_reason := reason })
    else .error (.invalidState rid model.status)

/-- `WithdrawalStore.mark_failed`: no status precondition; sets status `failed`
and records the reason. -/
def mark_failed (s : StoreState) (now : Nat) (rid : Nat) (reason : String) :
    Except StoreError (WithdrawalRequest × StoreState) :=
  match getRow s rid with
  | none => .error (.notFound rid)
  | some _ =>
    updateRow s now rid (fun r =>
      { r with status := .failed, failure_reason := some reason })

/-- Descending insertion by `created_at` (auxiliary for the SQL
`ORDER BY created_at DESC`). -/
def insertDesc (r : WithdrawalRequest) : List WithdrawalRequest → List WithdrawalRequest
  | [] => [r]
  | x :: xs => if r.created_at ≤ x.created_at then x :: insertDesc r xs else r :: x :: xs

/-- Sort rows newest-first by `created_at` (the SQL `ORDER BY created_at DESC`). -/
def sortDesc : List WithdrawalRequest → List WithdrawalRequest
  | [] => []
  | x :: xs => insertDesc x (sortDesc xs)

/-- `WithdrawalStore._select_rows`: optional status filter (`WHERE status = ?`),
then `ORDER BY created_at DESC`, then `LIMIT ?`. -/
def selectRows (rows : List WithdrawalRequest) (status : Option WithdrawalStatus)
    (limit : Nat) : List WithdrawalRequest :=
  match status with
  | none => (sortDesc rows).take limit
  | some st => (sortDesc (rows.filter (fun r => r.status == st))).take limit

/-- `WithdrawalStore.list_requests`. -/
def list_requests (s : StoreState) (status : Option WithdrawalStatus) (limit : Nat) :
    List WithdrawalRequest :=
  selectRows s.rows status limit

/-- A terminal status: `approved`, `rejected`, or `failed`. -/
def terminal (st : WithdrawalStatus) : Prop :=
  st = .approved ∨ st = .rejected ∨ st = .failed

instance (st : WithdrawalStatus) : Decidable (terminal st) := by
  unfold terminal; infer_instance

/-!
Manager layer (src/bot/manager.py).  The payment executor
(`WalletClient.send_payment`) is a function from the request to either a
transaction id or an exception message; `approve_request` records how many
times it invoked the executor.  `WalletError("Wallet transfer failed") from exc`
is modelled as a `ManagerError.wallet` carrying both the fixed message and the
chained original message.
-/

/-- Errors surfaced by `WithdrawalManager.approve_request`: store errors
propagate unchanged; a payment failure is re-raised as
`WalletError("Wallet transfer failed")` chained from the original exception. -/
inductive ManagerError where
  | store (e : StoreError)
  | wallet (message : String) (cause : String)
deriving DecidableEq, Repr

/-- Result of one `WithdrawalManager.approve_request` call: the outcome, the
final store state, and the number of `send_payment` invocations made. -/
structure ApproveOutcome where
  result : Except ManagerError WithdrawalRequest
  state : StoreState
  walletCalls : Nat
deriving Repr

/-- `WithdrawalManager.approve_request`: mark processing, then send the payment,
then mark approved; any payment exception is logged, persisted via
`mark_failed(request_id, str(exc))`, and re-raised as a `WalletError` chained
from the original. `now1` is the clock at the processing write, `now2` at the
terminal write. -/
def approve_request (s : StoreState) (now1 now2 : Nat) (request_id : Nat)
    (admin_name : String) (admin_id : Int)
    (send_payment : WithdrawalRequest → Except String String) : ApproveOutcome :=
  match mark_processing s now1 request_id with
  | .error e => { result := .error (.store e), state := s, walletCalls := 0 }
  | .ok (processing, s1) =>
    match send_payment processing with
    | .error exc =>
      match mark_failed s1 now2 request_id exc with
      | .error e => { result := .error (.store e), state := s1, walletCalls := 1 }
      | .ok (_, s2) =>
        { result := .error (.wallet "Wallet transfer failed" exc), state := s2, walletCalls := 1 }
    | .ok transaction_id =>
      match mark_approved s1 now2 request_id admin_name admin_id transaction_id with
      | .error e => { result := .error (.store e), state := s1, walletCalls := 1 }
      | .ok (approved, s2) =>
        { result := .ok approved, state := s2, walletCalls := 1 }

/-- A registered observer callback (`NewRequestListener`): given the new
request it either completes (`none`) or raises an exception with a message
(`some msg`); the dispatcher catches and logs either way. -/
def Listener : Type := WithdrawalRequest → Option String

/-- `WithdrawalManager._notify_new_request`: iterate over the snapshot of the
registered listeners in registration order, invoking each one inside a
try/except that logs and swallows any exception; returns the outcome log. -/
def notify_new_request (listeners : List Listener) (request : WithdrawalRequest) :
    List (Option String) :=
  match listeners with
  | [] => []
  | l :: rest => l request :: notify_new_request rest request

/-- `WithdrawalManager.create_request`: delegate to `WithdrawalStore.create_request`,
notify every registered listener, and return the new request regardless of the
observer outcomes (the outcome log is returned alongside for observability). -/
def manager_create_request (s : StoreState) (now : Nat) (listeners : List Listener)
    (player_name : String) (player_uuid : Option String)
    (wallet_address : String) (amount : String) (currency : String)
    (metadata : List (String × String)) :
    Option (WithdrawalRequest × List (Option String)) × StoreState :=
  match create_request s now player_name player_uuid wallet_address amount currency metadata with
  | (some request, s1) => (some (request, notify_new_request listeners request), s1)
  | (none, s1) => (none, s1)

/-!
HTTP wallet client (src/bot/wallet.py, `HTTPWalletClient.send_payment`),
response-handling part.  A JSON response is a status code, a raw body text, and
a decoded top-level object; `dict.get` yields Python `None` for a missing key,
and `a or b` picks `a` exactly when `a` is truthy.
-/

/-- A decoded JSON value as Python sees it (restricted to the shapes the client
inspects): a string, an integer, or `None`/`null`. -/
inductive PyValue where
  | str (s : String)
  | num (n : Int)
  | null
deriving DecidableEq, Repr

/-- Python truthiness of a `PyValue`: empty string, zero, and `None` are falsy. -/
def truthy : PyValue → Bool
  | .str s => !(s == "")
  | .num n => !(n == 0)
  | .null => false

/-- Python `str()` of a `PyValue`. -/
def pyStr : PyValue → String
  | .str s => s
  | .num n => toString n
  | .null => "None"

/-- Python `dict.get(k)`: the stored value, or `None` when the key is absent. -/
def dictGet (d : List (String × PyValue)) (k : String) : PyValue :=
  match d.find? (fun p => p.1 == k) with
  | some p => p.2
  | none => .null

/-- Whether the decoded response object contains the key at all. -/
def hasField (d : List (String × PyValue)) (k : String) : Bool :=
  d.any (fun p => p.1 == k)

/-- Python `a or b`. -/
def pyOr (a b : PyValue) : PyValue := if truthy a then a else b

/-- An HTTP payout response: status code, raw body, decoded JSON object. -/
structure HttpResponse where
  status : Nat
  body : String
  data : List (String × PyValue)

/-- `HTTPWalletClient.send_payment`, response handling: any status ≥ 400 raises
`WalletError` carrying the stripped body; otherwise the transaction id is
`data.get("transaction_id") or data.get("txid") or data.get("id")`, raising
`WalletError` when that chain is falsy, else returning `str()` of it. -/
def http_send_payment (resp : HttpResponse) : Except String String :=
  if 400 ≤ resp.status then
    .error ("Wallet request failed with status " ++ toString resp.status ++ ": " ++ resp.body.trim)
  else
    if truthy (pyOr (dictGet resp.data "transaction_id")
        (pyOr (dictGet resp.data "txid") (dictGet resp.data "id"))) then
      .ok (pyStr (pyOr (dictGet resp.data "transaction_id")
        (pyOr (dictGet resp.data "txid") (dictGet resp.data "id"))))
    else .error "Wallet response missing transaction identifier"

/-- Modelled from the spec: the claim's extraction rule for C8, word for word —
"first-match-wins over the fixed priority list transaction_id, txid, id" with a
match meaning the field is *present* in the response object. -/
def specFirstPresent (d : List (String × PyValue)) : Option PyValue :=
  if hasField d "transaction_id" then some (dictGet d "transaction_id")
  else if hasField d "txid" then some (dictGet d "txid")
  else if hasField d "id" then some (dictGet d "id")
  else none

/-- The amended extraction rule: first field of the priority list holding a
truthy (non-empty, non-zero, non-null) value. -/
def firstTruthyField (d : List (String × PyValue)) : Option PyValue :=
  if truthy (dictGet d "transaction_id") then some (dictGet d "transaction_id")
  else if truthy (dictGet d "txid") then some (dictGet d "txid")
  else if truthy (dictGet d "id") then some (dictGet d "id")
  else none

/-!
The set of store operations, for reachability statements: every public mutating
entry point of `WithdrawalStore`, with arbitrary arguments and clock values.
A failing operation (a raised exception) leaves the persisted state unchanged.
-/

/-- One call to a mutating `WithdrawalStore` operation. -/
inductive StoreOp where
  | create (now : Nat) (player_name : String) (player_uuid : Option String)
      (wallet_address : String) (amount : String) (currency : String)
      (metadata : List (String × String))
  | setMsg (now : Nat) (rid : Nat) (message_id : Int)
  | markProcessing (now : Nat) (rid : Nat)
  | markApproved (now : Nat) (rid : Nat) (admin_name : String) (admin_id : Int)
      (transaction_id : String)
  | markRejected (now : Nat) (rid : Nat) (admin_name : String) (admin_id : Int)
      (reason : Option String)
  | markFailed (now : Nat) (rid : Nat) (reason : String)

/-- Whether the operation is a `mark_failed` call. -/
def StoreOp.isMarkFailed : StoreOp → Bool
  | .markFailed _ _ _ => true
  | _ => false

/-- Apply one store operation; a raised exception leaves the state unchanged. -/
def applyOp (s : StoreState) (op : StoreOp) : StoreState :=
  match op with
  | .create now pn pu wa amt cur md => (create_request s now pn pu wa amt cur md).2
  | .setMsg now rid mid =>
    match set_discord_message s now rid mid with
    | .ok (_, s1) => s1
    | .error _ => s
  | .markProcessing now rid =>
    match mark_processing s now rid with
    | .ok (_, s1) => s1
    | .error _ => s
  | .markApproved now rid an ai tx =>
    match mark_approved s now rid an ai tx with
    | .ok (_, s1) => s1
    | .error _ => s
  | .markRejected now rid an ai reason =>
    match mark_rejected s now rid an ai reason with
    | .ok (_, s1) => s1
    | .error _ => s
  | .markFailed now rid reason =>
    match mark_failed s now rid reason with
    | .ok (_, s1) => s1
    | .error _ => s

/-- Run a sequence of store operations from a starting state. -/
def runOps (s : StoreState) (ops : List StoreOp) : StoreState :=
  ops.foldl applyOp s

/-!
Basic lemmas about row lookup and `updateRow`.
-/

lemma findRid_map_update (rows : List WithdrawalRequest) (rid : Nat)
    (f : WithdrawalRequest → WithdrawalRequest) (hf : ∀ r, (f r).id = r.id) :
    findRid (rows.map (fun x => if x.id == rid then f x else x)) rid
      = (findRid rows rid).map f := by
  unfold findRid
  rw [List.find?_map]
  have hp : ((fun r => r.id == rid) ∘ fun x => if x.id == rid then f x else x)
      = (fun r => r.id == rid) := by
    funext y
    show ((if y.id == rid then f y else y).id == rid) = (y.id == rid)
    cases hy : y.id == rid with
    | true =>
      show ((f y).id == rid) = true
      rw [hf y]
      exact hy
    | false =>
      show (y.id == rid) = false
      exact hy
  rw [hp]
  cases hfind : List.find? (fun r => r.id == rid) rows with
  | none => rfl
  | some r =>
    have hr := List.find?_some hfind
    show some (if r.id == rid then f r else r) = some (f r)
    rw [if_pos hr]

lemma any_rid_eq (rows : List WithdrawalRequest) (rid : Nat) :
    rows.any (fun r => r.id == rid) = (findRid rows rid).isSome := by
  induction rows with
  | nil => rfl
  | cons x xs ih =>
    cases hx : x.id == rid with
    | true => simp [findRid, List.find?_cons, hx]
    | false => simpa [findRid, List.find?_cons, hx] using ih

lemma findRid_mem_id {rows : List WithdrawalRequest} {rid : Nat} {r : WithdrawalRequest}
    (h : findRid rows rid = some r) : r ∈ rows ∧ r.id = rid := by
  unfold findRid at h
  have hp := List.find?_some h
  exact ⟨List.mem_of_find?_eq_some h, eq_of_beq hp⟩

/-- With pairwise-distinct ids, any member carrying the looked-up id is the
row the lookup returns. -/
lemma mem_findRid_unique {rows : List WithdrawalRequest} {rid : Nat}
    {r r₀ : WithdrawalRequest}
    (hpw : rows.Pairwise (fun a b => a.id ≠ b.id))
    (hmem : r ∈ rows) (hr : r.id = rid) (hfind : findRid rows rid = some r₀) :
    r = r₀ := by
  induction rows with
  | nil => cases hmem
  | cons x xs ih =>
    rw [List.pairwise_cons] at hpw
    cases hx : x.id == rid with
    | true =>
      have hxid : x.id = rid := eq_of_beq hx
      simp only [findRid, List.find?_cons, hx, Option.some.injEq] at hfind
      rcases List.mem_cons.mp hmem with rfl | h
      · exact hfind
      · exact absurd (hxid.trans hr.symm) (hpw.1 r h)
    | false =>
      have hxid : x.id ≠ rid := by
        intro hc
        rw [hc] at hx
        simp at hx
      simp only [findRid, List.find?_cons, hx] at hfind
      rcases List.mem_cons.mp hmem with rfl | h
      · exact absurd hr hxid
      · exact ih hpw.2 h hfind

/-- With pairwise-distinct ids, two members sharing an id are the same row. -/
lemma mem_id_unique {rows : List WithdrawalRequest} {a b : WithdrawalRequest}
    (hpw : rows.Pairwise (fun x y => x.id ≠ y.id))
    (ha : a ∈ rows) (hb : b ∈ rows) (h : a.id = b.id) : a = b := by
  induction rows with
  | nil => cases ha
  | cons x xs ih =>
    rw [List.pairwise_cons] at hpw
    rcases List.mem_cons.mp ha with rfl | hax
    · rcases List.mem_cons.mp hb with rfl | hbx
      · rfl
      · exact absurd h (hpw.1 b hbx)
    · rcases List.mem_cons.mp hb with rfl | hbx
      · exact absurd h.symm (hpw.1 a hax)
      · exact ih hpw.2 hax hbx

/-- Closed form of `_update_row` for a field assignment that does not touch the
id column (none of the store's updates do). -/
lemma updateRow_eq (s : StoreState) (now : Nat) (rid : Nat)
    (upd : WithdrawalRequest → WithdrawalRequest)
    (hupd : ∀ r, (upd r).id = r.id) :
    updateRow s now rid upd =
      match findRid s.rows rid with
      | none => .error (.notFound rid)
      | some r =>
        .ok ({ upd r with updated_at := now },
             { s with rows := s.rows.map (fun x =>
                 if x.id == rid then { upd x with updated_at := now } else x) }) := by
  have hf : ∀ r, ({ upd r with updated_at := now } : WithdrawalRequest).id = r.id :=
    fun r => hupd r
  unfold updateRow
  rw [any_rid_eq,
    findRid_map_update s.rows rid (fun r => { upd r with updated_at := now }) hf]
  cases hg : findRid s.rows rid with
  | none => simp
  | some r => simp

lemma updateRow_ok_getRow {s : StoreState} {now rid : Nat}
    {upd : WithdrawalRequest → WithdrawalRequest}
    {p : WithdrawalRequest} {s1 : StoreState}
    (hupd : ∀ r, (upd r).id = r.id)
    (h : updateRow s now rid upd = .ok (p, s1)) :
    getRow s1 rid = some p := by
  rw [updateRow_eq s now rid upd hupd] at h
  cases hg : findRid s.rows rid with
  | none => rw [hg] at h; cases h
  | some r =>
    rw [hg] at h
    simp only [Except.ok.injEq, Prod.mk.injEq] at h
    obtain ⟨hp, hs1⟩ := h
    subst hs1
    show findRid _ rid = some p
    rw [findRid_map_update s.rows rid (fun r => { upd r with updated_at := now })
        (fun r => hupd r),
      hg]
    exact congrArg some hp

/-!
Forward characterizations of the store's transition operations under known
preconditions, and inversions of their successful outcomes.
-/

lemma set_discord_message_some {s : StoreState} {now rid : Nat} {mid : Int}
    {r : WithdrawalRequest} (hg : getRow s rid = some r) :
    set_discord_message s now rid mid =
      .ok ({ r with discord_message_id := some mid, updated_at := now },
           { s with rows := s.rows.map (fun x =>
               if x.id == rid then { x with discord_message_id := some mid, updated_at := now }
               else x) }) := by
  unfold set_discord_message
  rw [updateRow_eq s now rid (fun r => { r with discord_message_id := some mid })
      (fun r => rfl),
    show findRid s.rows rid = some r from hg]

lemma mark_processing_pending {s : StoreState} {now rid : Nat}
    {model : WithdrawalRequest}
    (hg : getRow s rid = some model) (hp : model.status = .pending) :
    mark_processing s now rid =
      .ok ({ model with status := .processing, updated_at := now },
           { s with rows := s.rows.map (fun x =>
               if x.id == rid then { x with status := .processing, updated_at := now }
               else x) }) := by
  unfold mark_processing
  rw [hg]
  show (if model.status = .pending then
          updateRow s now rid (fun r => { r with status := .processing })
        else .error (.invalidState rid model.status)) = _
  rw [if_pos hp,
    updateRow_eq s now rid (fun r => { r with status := .processing }) (fun r => rfl),
    show findRid s.rows rid = some model from hg]

lemma mark_processing_not_pending {s : StoreState} {now rid : Nat}
    {model : WithdrawalRequest}
    (hg : getRow s rid = some model) (hp : ¬ model.status = .pending) :
    mark_processing s now rid = .error (.invalidState rid model.status) := by
  unfold mark_processing
  rw [hg]
  show (if model.status = .pending then
          updateRow s now rid (fun r => { r with status := .processing })
        else .error (.invalidState rid model.status)) = _
  rw [if_neg hp]

lemma mark_approved_ok {s : StoreState} {now rid : Nat}
    {an : String} {ai : Int} {tx : String} {model : WithdrawalRequest}
    (hg : getRow s rid = some model)
    (hp : model.status = .pending ∨ model.status = .processing) :
    mark_approved s now rid an ai tx =
      .ok ({ model with
              status := .approved
              approved_by := some an
              approved_by_id := some ai
              transaction_id := some tx
              failure_reason := none
              updated_at := now },
           { s with rows := s.rows.map (fun x =>
               if x.id == rid then
                 { x with
                    status := .approved
                    approved_by := some an
                    approved_by_id := some ai
                    transaction_id := some tx
                    failure_reason := none
                    updated_at := now }
               else x) }) := by
  unfold mark_approved
  rw [hg]
  show (if model.status = .pending ∨ model.status = .processing then
          updateRow s now rid _
        else .error (.invalidState rid model.status)) = _
  rw [if_pos hp,
    updateRow_eq s now rid
      (fun r =>
        { r with
          status := .approved
          approved_by := some an
          approved_by_id := some ai
          transaction_id := some tx
          failure_reason := none })
      (fun r => rfl),
    show findRid s.rows rid = some model from hg]

lemma mark_approved_err {s : StoreState} {now rid : Nat}
    {an : String} {ai : Int} {tx : String} {model : WithdrawalRequest}
    (hg : getRow s rid = some model)
    (hp : ¬ (model.status = .pending ∨ model.status = .processing)) :
    mark_approved s now rid an ai tx = .error (.invalidState rid model.status) := by
  unfold mark_approved
  rw [hg]
  show (if model.status = .pending ∨ model.status = .processing then
          updateRow s now rid _
        else .error (.invalidState rid model.status)) = _
  rw [if_neg hp]

lemma mark_rejected_ok {s : StoreState} {now rid : Nat}
    {an : String} {ai : Int} {reason : Option String} {model : WithdrawalRequest}
    (hg : getRow s rid = some model)
    (hp : model.status = .pending ∨ model.status = .processing) :
    mark_rejected s now rid an ai reason =
      .ok ({ model with
              status := .rejected
              approved_by := some an
              approved_by_id := some ai
              failure_reason := reason
              updated_at := now },
           { s with rows := s.rows.map (fun x =>
               if x.id == rid then
                 { x with
                    status := .rejected
                    approved_by := some an
                    approved_by_id := some ai
                    failure_reason := reason
                    updated_at := now }
               else x) }) := by
  unfold mark_rejected
  rw [hg]
  show (if model.status = .pending ∨ model.status = .processing then
          updateRow s now rid _
        else .error (.invalidState rid model.status)) = _
  rw [if_pos hp,
    updateRow_eq s now rid
      (fun r =>
        { r with
          status := .rejected
          approved_by := some an
          approved_by_id := some ai
          failure_reason := reason })
      (fun r => rfl),
    show findRid s.rows rid = some model from hg]

lemma mark_failed_some {s : StoreState} {now rid : Nat} {reason : String}
    {model : WithdrawalRequest} (hg : getRow s rid = some model) :
    mark_failed s now rid reason =
      .ok ({ model with status := .failed, failure_reason := some reason, updated_at := now },
           { s with rows := s.rows.map (fun x =>
               if x.id == rid then
                 { x with status := .failed, failure_reason := some reason, updated_at := now }
               else x) }) := by
  unfold mark_failed
  rw [hg]
  show updateRow s now rid (fun r => { r with status := .failed, failure_reason := some reason })
        = _
  rw [updateRow_eq s now rid
      (fun r => { r with status := .failed, failure_reason := some reason }) (fun r => rfl),
    show findRid s.rows rid = some model from hg]

lemma set_discord_message_ok_inv {s : StoreState} {now rid : Nat} {mid : Int}
    {p : WithdrawalRequest} {s1 : StoreState}
    (h : set_discord_message s now rid mid = .ok (p, s1)) :
    ∃ model, getRow s rid = some model ∧
      p = { model with discord_message_id := some mid, updated_at := now } ∧
      s1 = { s with rows := s.rows.map (fun x =>
              if x.id == rid then { x with discord_message_id := some mid, updated_at := now }
              else x) } := by
  cases hg : getRow s rid with
  | none =>
    unfold set_discord_message at h
    rw [updateRow_eq s now rid (fun r => { r with discord_message_id := some mid })
        (fun r => rfl),
      show findRid s.rows rid = none from hg] at h
    exact Except.noConfusion h
  | some model =>
    rw [set_discord_message_some hg] at h
    simp only [Except.ok.injEq, Prod.mk.injEq] at h
    exact ⟨model, rfl, h.1.symm, h.2.symm⟩

lemma mark_processing_ok_inv {s : StoreState} {now rid : Nat}
    {p : WithdrawalRequest} {s1 : StoreState}
    (h : mark_processing s now rid = .ok (p, s1)) :
    ∃ model, getRow s rid = some model ∧ model.status = .pending ∧
      p = { model with status := .processing, updated_at := now } ∧
      s1 = { s with rows := s.rows.map (fun x =>
              if x.id == rid then { x with status := .processing, updated_at := now }
              else x) } := by
  cases hg : getRow s rid with
  | none =>
    unfold mark_processing at h
    rw [hg] at h
    exact Except.noConfusion h
  | some model =>
    by_cases hp : model.status = .pending
    · rw [mark_processing_pending hg hp] at h
      simp only [Except.ok.injEq, Prod.mk.injEq] at h
      exact ⟨model, rfl, hp, h.1.symm, h.2.symm⟩
    · rw [mark_processing_not_pending hg hp] at h
      exact Except.noConfusion h

lemma mark_approved_ok_inv {s : StoreState} {now rid : Nat}
    {an : String} {ai : Int} {tx : String}
    {p : WithdrawalRequest} {s1 : StoreState}
    (h : mark_approved s now rid an ai tx = .ok (p, s1)) :
    ∃ model, getRow s rid = some model ∧
      (model.status = .pending ∨ model.status = .processing) ∧
      p = { model with
              status := .approved
              approved_by := some an
              approved_by_id := some ai
              transaction_id := some tx
              failure_reason := none
              updated_at := now } ∧
      s1 = { s with rows := s.rows.map (fun x =>
              if x.id == rid then
                { x with
                   status := .approved
                   approved_by := some an
                   approved_by_id := some ai
                   transaction_id := some tx
                   failure_reason := none
                   updated_at := now }
              else x) } := by
  cases hg : getRow s rid with
  | none =>
    unfold mark_approved at h
    rw [hg] at h
    exact Except.noConfusion h
  | some model =>
    by_cases hp : model.status = .pending ∨ model.status = .processing
    · rw [mark_approved_ok hg hp] at h
      simp only [Except.ok.injEq, Prod.mk.injEq] at h
      exact ⟨model, rfl, hp, h.1.symm, h.2.symm⟩
    · rw [mark_approved_err hg hp] at h
      exact Except.noConfusion h

lemma mark_rejected_err {s : StoreState} {now rid : Nat}
    {an : String} {ai : Int} {reason : Option String} {model : WithdrawalRequest}
    (hg : getRow s rid = some model)
    (hp : ¬ (model.status = .pending ∨ model.status = .processing)) :
    mark_rejected s now rid an ai reason = .error (.invalidState rid model.status) := by
  unfold mark_rejected
  rw [hg]
  show (if model.status = .pending ∨ model.status = .processing then
          updateRow s now rid _
        else .error (.invalidState rid model.status)) = _
  rw [if_neg hp]

lemma mark_rejected_ok_inv {s : StoreState} {now rid : Nat}
    {an : String} {ai : Int} {reason : Option String}
    {p : WithdrawalRequest} {s1 : StoreState}
    (h : mark_rejected s now rid an ai reason = .ok (p, s1)) :
    ∃ model, getRow s rid = some model ∧
      (model.status = .pending ∨ model.status = .processing) ∧
      p = { model with
              status := .rejected
              approved_by := some an
              approved_by_id := some ai
              failure_reason := reason
              updated_at := now } ∧
      s1 = { s with rows := s.rows.map (fun x =>
              if x.id == rid then
                { x with
                   status := .rejected
                   approved_by := some an
                   approved_by_id := some ai
                   failure_reason := reason
                   updated_at := now }
              else x) } := by
  cases hg : getRow s rid with
  | none =>
    unfold mark_rejected at h
    rw [hg] at h
    exact Except.noConfusion h
  | some model =>
    by_cases hp : model.status = .pending ∨ model.status = .processing
    · rw [mark_rejected_ok hg hp] at h
      simp only [Except.ok.injEq, Prod.mk.injEq] at h
      exact ⟨model, rfl, hp, h.1.symm, h.2.symm⟩
    · rw [mark_rejected_err hg hp] at h
      exact Except.noConfusion h

lemma mark_failed_ok_inv {s : StoreState} {now rid : Nat} {reason : String}
    {p : WithdrawalRequest} {s1 : StoreState}
    (h : mark_failed s now rid reason = .ok (p, s1)) :
    ∃ model, getRow s rid = some model ∧
      p = { model with status := .failed, failure_reason := some reason, updated_at := now } ∧
      s1 = { s with rows := s.rows.map (fun x =>
              if x.id == rid then
                { x with status := .failed, failure_reason := some reason, updated_at := now }
              else x) } := by
  cases hg : getRow s rid with
  | none =>
    unfold mark_failed at h
    rw [hg] at h
    exact Except.noConfusion h
  | some model =>
    rw [mark_failed_some hg] at h
    simp only [Except.ok.injEq, Prod.mk.injEq] at h
    exact ⟨model, rfl, h.1.symm, h.2.symm⟩

/-!
The transaction-identifier invariant over reachable store states.
-/

/-- Per-row invariant: an approved row carries a transaction id, and a carried
transaction id means the row is approved or failed. -/
def RowInv (r : WithdrawalRequest) : Prop :=
  (r.status = .approved → r.transaction_id.isSome = true) ∧
  (r.transaction_id.isSome = true → r.status = .approved ∨ r.status = .failed)

instance (r : WithdrawalRequest) : Decidable (RowInv r) := by
  unfold RowInv; infer_instance

/-- Store-level invariant maintained by every operation: ids are below the
auto-increment counter, pairwise distinct, and every row satisfies `RowInv`. -/
def StateInv (s : StoreState) : Prop :=
  (∀ r ∈ s.rows, r.id < s.nextId) ∧
  s.rows.Pairwise (fun a b => a.id ≠ b.id) ∧
  (∀ r ∈ s.rows, RowInv r)

instance (s : StoreState) : Decidable (StateInv s) := by
  unfold StateInv; infer_instance

lemma RowInv_txid_none {r : WithdrawalRequest} (hr : RowInv r)
    (hst : r.status = .pending ∨ r.status = .processing ∨ r.status = .rejected) :
    r.transaction_id = none := by
  cases hx : r.transaction_id with
  | none => rfl
  | some t =>
    have h2 := hr.2 (by rw [hx]; rfl)
    rcases hst with h | h | h <;> rcases h2 with h2 | h2 <;> rw [h] at h2 <;> cases h2

/-- The targeted row-map of `_update_row` preserves `StateInv` whenever the
update preserves the id and turns an invariant matching row into an invariant
row. -/
lemma StateInv_map_update {s : StoreState} {rid : Nat}
    (g : WithdrawalRequest → WithdrawalRequest)
    (hs : StateInv s)
    (hgid : ∀ r, (g r).id = r.id)
    (hinv : ∀ r ∈ s.rows, r.id = rid → RowInv r → RowInv (g r)) :
    StateInv { s with rows := s.rows.map (fun x => if x.id == rid then g x else x) } := by
  have hfid : ∀ x : WithdrawalRequest,
      ((fun x => if x.id == rid then g x else x) x).id = x.id := by
    intro x
    by_cases hx : (x.id == rid) = true
    · show (if x.id == rid then g x else x).id = x.id
      rw [if_pos hx]
      exact hgid x
    · show (if x.id == rid then g x else x).id = x.id
      rw [if_neg hx]
  refine ⟨?_, ?_, ?_⟩
  · intro r' hr'
    obtain ⟨x, hx, hxe⟩ := List.mem_map.mp hr'
    have : r'.id = x.id := by rw [← hxe]; exact hfid x
    rw [this]
    exact hs.1 x hx
  · exact List.Pairwise.map _ (fun a b hab => by rw [hfid a, hfid b]; exact hab) hs.2.1
  · intro r' hr'
    obtain ⟨x, hx, hxe⟩ := List.mem_map.mp hr'
    by_cases hxr : (x.id == rid) = true
    · rw [← hxe, show (if x.id == rid then g x else x) = g x from if_pos hxr]
      exact hinv x hx (eq_of_beq hxr) (hs.2.2 x hx)
    · rw [← hxe, show (if x.id == rid then g x else x) = x from if_neg hxr]
      exact hs.2.2 x hx

lemma StateInv_create {s : StoreState} (hs : StateInv s) (now : Nat)
    (pn : String) (pu : Option String) (wa amt cur : String)
    (md : List (String × String)) :
    StateInv (create_request s now pn pu wa amt cur md).2 := by
  refine ⟨?_, ?_, ?_⟩
  · intro r hr
    rcases List.mem_append.mp hr with h | h
    · exact Nat.lt_succ_of_lt (hs.1 r h)
    · rw [List.mem_singleton.mp h]
      exact Nat.lt_succ_self _
  · refine List.pairwise_append.mpr ⟨hs.2.1, List.pairwise_singleton _ _, ?_⟩
    intro a ha b hb
    rw [List.mem_singleton.mp hb]
    exact Nat.ne_of_lt (hs.1 a ha)
  · intro r hr
    rcases List.mem_append.mp hr with h | h
    · exact hs.2.2 r h
    · rw [List.mem_singleton.mp h]
      exact ⟨fun h => WithdrawalStatus.noConfusion h, fun h => Bool.noConfusion h⟩

lemma StateInv_applyOp {s : StoreState} (op : StoreOp) (hs : StateInv s) :
    StateInv (applyOp s op) := by
  cases op with
  | create now pn pu wa amt cur md =>
    exact StateInv_create hs now pn pu wa amt cur md
  | setMsg now rid mid =>
    cases h : set_discord_message s now rid mid with
    | error e => simpa [applyOp, h] using hs
    | ok pr =>
      obtain ⟨p, s1⟩ := pr
      obtain ⟨model, hg, hp, hs1⟩ := set_discord_message_ok_inv h
      have : StateInv s1 := by
        subst hs1
        exact StateInv_map_update _ hs (fun r => rfl)
          (fun r _ _ hrinv => ⟨fun h => hrinv.1 h, fun h => hrinv.2 h⟩)
      simpa [applyOp, h] using this
  | markProcessing now rid =>
    cases h : mark_processing s now rid with
    | error e => simpa [applyOp, h] using hs
    | ok pr =>
      obtain ⟨p, s1⟩ := pr
      obtain ⟨model, hg, hp, hpe, hs1⟩ := mark_processing_ok_inv h
      have : StateInv s1 := by
        subst hs1
        refine StateInv_map_update _ hs (fun r => rfl) ?_
        intro r hr hrid hrinv
        have hrm : r = model := mem_findRid_unique hs.2.1 hr hrid hg
        have htx : r.transaction_id = none :=
          RowInv_txid_none hrinv (Or.inl (by rw [hrm]; exact hp))
        refine ⟨fun h => WithdrawalStatus.noConfusion h, fun h => ?_⟩
        rw [show ({ r with status := .processing, updated_at := now } :
              WithdrawalRequest).transaction_id = r.transaction_id from rfl, htx] at h
        exact Bool.noConfusion h
      simpa [applyOp, h] using this
  | markApproved now rid an ai tx =>
    cases h : mark_approved s now rid an ai tx with
    | error e => simpa [applyOp, h] using hs
    | ok pr =>
      obtain ⟨p, s1⟩ := pr
      obtain ⟨model, hg, hp, hpe, hs1⟩ := mark_approved_ok_inv h
      have : StateInv s1 := by
        subst hs1
        exact StateInv_map_update _ hs (fun r => rfl)
          (fun r _ _ _ => ⟨fun _ => rfl, fun _ => Or.inl rfl⟩)
      simpa [applyOp, h] using this
  | markRejected now rid an ai reason =>
    cases h : mark_rejected s now rid an ai reason with
    | error e => simpa [applyOp, h] using hs
    | ok pr =>
      obtain ⟨p, s1⟩ := pr
      obtain ⟨model, hg, hp, hpe, hs1⟩ := mark_rejected_ok_inv h
      have : StateInv s1 := by
        subst hs1
        refine StateInv_map_update _ hs (fun r => rfl) ?_
        intro r hr hrid hrinv
        have hrm : r = model := mem_findRid_unique hs.2.1 hr hrid hg
        have htx : r.transaction_id = none := by
          refine RowInv_txid_none hrinv ?_
          rcases hp with h1 | h1
        
          · exact Or.inl (by rw [hrm]; exact h1)
          · exact Or.inr (Or.inl (by rw [hrm]; exact h1))
        refine ⟨fun h => WithdrawalStatus.noConfusion h, fun h => ?_⟩
        rw [show ({ r with
              status := .rejected
              approved_by := some an
              approved_by_id := some ai
              failure_reason := reason
              updated_at := now } :
              WithdrawalRequest).transaction_id = r.transaction_id from rfl, htx] at h
        exact Bool.noConfusion h
      simpa [applyOp, h] using this
  | markFailed now rid reason =>
    cases h : mark_failed s now rid reason with
    | error e => simpa [applyOp, h] using hs
    | ok pr =>
      obtain ⟨p, s1⟩ := pr
      obtain ⟨model, hg, hp, hs1⟩ := mark_failed_ok_inv h
      have : StateInv s1 := by
        subst hs1
        exact StateInv_map_update _ hs (fun r => rfl)
          (fun r _ _ _ => ⟨fun h => WithdrawalStatus.noConfusion h, fun _ => Or.inr rfl⟩)
      simpa [applyOp, h] using this

lemma StateInv_initial : StateInv initialState :=
  ⟨fun r hr => absurd hr (List.not_mem_nil r),
   List.Pairwise.nil,
   fun r hr => absurd hr (List.not_mem_nil r)⟩

lemma StateInv_runOps (s : StoreState) (ops : List StoreOp) (hs : StateInv s) :
    StateInv (runOps s ops) := by
  induction ops generalizing s with
  | nil => exact hs
  | cons op ops ih => exact ih (applyOp s op) (StateInv_applyOp op hs)

/-!
Ordering and filtering lemmas for `list_requests`.
-/

lemma mem_insertDesc {r a : WithdrawalRequest} {l : List WithdrawalRequest} :
    a ∈ insertDesc r l ↔ a = r ∨ a ∈ l := by
  induction l with
  | nil => simp [insertDesc]
  | cons x xs ih =>
    by_cases h : r.created_at ≤ x.created_at
    · simp only [insertDesc, if_pos h, List.mem_cons, ih]
      tauto
    · simp only [insertDesc, if_neg h, List.mem_cons]

lemma mem_sortDesc {a : WithdrawalRequest} {l : List WithdrawalRequest} :
    a ∈ sortDesc l ↔ a ∈ l := by
  induction l with
  | nil => exact Iff.rfl
  | cons x xs ih =>
    simp only [sortDesc, mem_insertDesc, ih, List.mem_cons]

lemma pairwise_insertDesc {r : WithdrawalRequest} {l : List WithdrawalRequest}
    (h : l.Pairwise (fun a b => b.created_at ≤ a.created_at)) :
    (insertDesc r l).Pairwise (fun a b => b.created_at ≤ a.created_at) := by
  induction l with
  | nil => simp [insertDesc]
  | cons x xs ih =>
    rw [List.pairwise_cons] at h
    by_cases hle : r.created_at ≤ x.created_at
    · rw [show insertDesc r (x :: xs) = x :: insertDesc r xs by
          simp only [insertDesc, if_pos hle]]
      rw [List.pairwise_cons]
      refine ⟨?_, ih h.2⟩
      intro b hb
      rcases mem_insertDesc.mp hb with rfl | hb
      · exact hle
      · exact h.1 b hb
    · rw [show insertDesc r (x :: xs) = r :: x :: xs by
          simp only [insertDesc, if_neg hle]]
      rw [List.pairwise_cons]
      refine ⟨?_, List.pairwise_cons.mpr ⟨h.1, h.2⟩⟩
      intro b hb
      rcases List.mem_cons.mp hb with rfl | hb
      · exact le_of_not_le hle
      · exact le_trans (h.1 b hb) (le_of_not_le hle)

lemma pairwise_sortDesc (l : List WithdrawalRequest) :
    (sortDesc l).Pairwise (fun a b => b.created_at ≤ a.created_at) := by
  induction l with
  | nil => exact List.Pairwise.nil
  | cons x xs ih => exact pairwise_insertDesc ih

lemma selectRows_status {rows : List WithdrawalRequest} {st : WithdrawalStatus}
    {limit : Nat} {r : WithdrawalRequest}
    (h : r ∈ selectRows rows (some st) limit) : r.status = st := by
  unfold selectRows at h
  have h1 := List.mem_of_mem_take h
  have h2 := mem_sortDesc.mp h1
  have h3 := List.mem_filter.mp h2
  exact eq_of_beq h3.2

lemma selectRows_length (rows : List WithdrawalRequest)
    (stOpt : Option WithdrawalStatus) (limit : Nat) :
    (selectRows rows stOpt limit).length ≤ limit := by
  unfold selectRows
  cases stOpt with
  | none => exact List.length_take_le _ _
  | some st => exact List.length_take_le _ _

lemma selectRows_sorted (rows : List WithdrawalRequest)
    (stOpt : Option WithdrawalStatus) (limit : Nat) :
    (selectRows rows stOpt limit).Pairwise (fun a b => b.created_at ≤ a.created_at) := by
  unfold selectRows
  cases stOpt with
  | none => exact List.Pairwise.sublist (List.take_sublist _ _) (pairwise_sortDesc _)
  | some st => exact List.Pairwise.sublist (List.take_sublist _ _) (pairwise_sortDesc _)

/-!
Remaining helper lemmas for the claim theorems.
-/

lemma findRid_lt_append {rows : List WithdrawalRequest} {n : Nat}
    (h : ∀ r ∈ rows, r.id < n) (newRow : WithdrawalRequest) (hn : newRow.id = n) :
    findRid (rows ++ [newRow]) n = some newRow := by
  induction rows with
  | nil =>
    have hb : (newRow.id == n) = true := by rw [hn]; exact beq_self_eq_true n
    show findRid [newRow] n = some newRow
    simp [findRid, List.find?_cons, hb]
  | cons x xs ih =>
    have hx : (x.id == n) = false := by
      have hne := Nat.ne_of_lt (h x (List.mem_cons_self x xs))
      simp [hne]
    show findRid (x :: (xs ++ [newRow])) n = some newRow
    simp only [findRid, List.find?_cons, hx]
    exact ih (fun r hr => h r (List.mem_cons_of_mem x hr))

/-- Closed form of `create_request` when the auto-increment counter is larger
than every existing id (true in every reachable state). -/
lemma create_request_closed (s : StoreState) (now : Nat)
    (pn : String) (pu : Option String) (wa amt cur : String)
    (md : List (String × String))
    (hID : ∀ r ∈ s.rows, r.id < s.nextId) :
    create_request s now pn pu wa amt cur md =
      (some
        { id := s.nextId, player_name := pn, player_uuid := pu, wallet_address := wa,
          amount := amt, currency := cur, status := .pending, created_at := now,
          updated_at := now, metadata := md, discord_message_id := none,
          approved_by := none, approved_by_id := none, transaction_id := none,
          failure_reason := none },
       { rows := s.rows ++
           [{ id := s.nextId, player_name := pn, player_uuid := pu, wallet_address := wa,
              amount := amt, currency := cur, status := .pending, created_at := now,
              updated_at := now, metadata := md, discord_message_id := none,
              approved_by := none, approved_by_id := none, transaction_id := none,
              failure_reason := none }],
         nextId := s.nextId + 1 }) := by
  show (findRid (s.rows ++
      [{ id := s.nextId, player_name := pn, player_uuid := pu, wallet_address := wa,
         amount := amt, currency := cur, status := .pending, created_at := now,
         updated_at := now, metadata := md, discord_message_id := none,
         approved_by := none, approved_by_id := none, transaction_id := none,
         failure_reason := none }]) s.nextId, _) = _
  rw [findRid_lt_append hID _ rfl]

lemma getRow_map_update {s : StoreState} {rid : Nat} {model : WithdrawalRequest}
    (g : WithdrawalRequest → WithdrawalRequest)
    (hgid : ∀ r, (g r).id = r.id)
    (hg : getRow s rid = some model) :
    getRow { s with rows := s.rows.map (fun x => if x.id == rid then g x else x) } rid
      = some (g model) := by
  show findRid _ rid = _
  rw [findRid_map_update s.rows rid g hgid, show findRid s.rows rid = some model from hg]
  rfl

lemma notify_new_request_map (listeners : List Listener) (r : WithdrawalRequest) :
    notify_new_request listeners r = listeners.map (fun l => l r) := by
  induction listeners with
  | nil => rfl
  | cons l rest ih => simp [notify_new_request, ih]

lemma pyOr_chain_truthy (t1 t2 t3 : PyValue) :
    (if truthy (pyOr t1 (pyOr t2 t3)) = true then
       (Except.ok (pyStr (pyOr t1 (pyOr t2 t3))) : Except String String)
     else .error "Wallet response missing transaction identifier") =
      match (if truthy t1 = true then some t1 else if truthy t2 = true then some t2
             else if truthy t3 = true then some t3 else none) with
      | some v => .ok (pyStr v)
      | none => .error "Wallet response missing transaction identifier" := by
  by_cases h1 : truthy t1 = true
  · simp [pyOr, h1]
  · by_cases h2 : truthy t2 = true
    · simp [pyOr, h1, h2]
    · by_cases h3 : truthy t3 = true
      · simp [pyOr, h1, h2, h3]
      · simp [pyOr, h1, h2, h3]

/-- A member of the id-targeted row-map sharing its id with an untargeted row
is that row, unchanged. -/
lemma map_update_untargeted {rows : List WithdrawalRequest} {rid : Nat}
    {r r' : WithdrawalRequest}
    (g : WithdrawalRequest → WithdrawalRequest)
    (hgid : ∀ x, (g x).id = x.id)
    (hpw : rows.Pairwise (fun a b => a.id ≠ b.id))
    (hmem : r ∈ rows)
    (hmem' : r' ∈ rows.map (fun x => if x.id == rid then g x else x))
    (hid : r'.id = r.id)
    (hne : r.id ≠ rid) : r' = r := by
  obtain ⟨x, hx, hxe⟩ := List.mem_map.mp hmem'
  have hxid : x.id = r.id := by
    rw [← hid, ← hxe]
    by_cases hxr : (x.id == rid) = true
    · rw [show (if x.id == rid then g x else x) = g x from if_pos hxr, hgid x]
    · rw [show (if x.id == rid then g x else x) = x from if_neg hxr]
  have hxr2 : x = r := mem_id_unique hpw hx hmem hxid
  subst hxr2
  have hfalse : (x.id == rid) = false := by
    cases hb : x.id == rid with
    | true => exact absurd (eq_of_beq hb) hne
    | false => rfl
  rw [← hxe, show (if x.id == rid then g x else x) = x from if_neg (by simp [hfalse])]

/-- A status-preserving targeted row-map preserves the status of every row. -/
lemma map_update_status_preserved {rows : List WithdrawalRequest} {rid : Nat}
    {r r' : WithdrawalRequest}
    (g : WithdrawalRequest → WithdrawalRequest)
    (hgid : ∀ x, (g x).id = x.id)
    (hgst : ∀ x, (g x).status = x.status)
    (hpw : rows.Pairwise (fun a b => a.id ≠ b.id))
    (hmem : r ∈ rows)
    (hmem' : r' ∈ rows.map (fun x => if x.id == rid then g x else x))
    (hid : r'.id = r.id) : r'.status = r.status := by
  obtain ⟨x, hx, hxe⟩ := List.mem_map.mp hmem'
  have hxid : x.id = r.id := by
    rw [← hid, ← hxe]
    by_cases hxr : (x.id == rid) = true
    · rw [show (if x.id == rid then g x else x) = g x from if_pos hxr, hgid x]
    · rw [show (if x.id == rid then g x else x) = x from if_neg hxr]
  have hxr2 : x = r := mem_id_unique hpw hx hmem hxid
  subst hxr2
  rw [← hxe]
  by_cases hxr : (x.id == rid) = true
  · rw [show (if x.id == rid then g x else x) = g x from if_pos hxr, hgst x]
  · rw [show (if x.id == rid then g x else x) = x from if_neg hxr]

/-!
Claim theorems.
-/

/-- C2: approving a request already in a terminal state (approved, rejected,
or failed) fails with the InvalidState error naming that status, leaves the
store untouched, and never invokes the payment executor (zero wallet calls). -/
theorem approve_terminal_fails_no_payment (s : StoreState) (now1 now2 : Nat)
    (rid : Nat) (r : WithdrawalRequest) (an : String) (ai : Int)
    (send_payment : WithdrawalRequest → Except String String)
    (hg : getRow s rid = some r) (hterm : terminal r.status) :
    approve_request s now1 now2 rid an ai send_payment =
      { result := .error (.store (.invalidState rid r.status)), state := s,
        walletCalls := 0 } := by
  have hnp : ¬ r.status = .pending := by
    rcases hterm with h | h | h <;> rw [h] <;> intro hc <;> cases hc
  unfold approve_request
  rw [mark_processing_not_pending hg hnp]

def c2Row : WithdrawalRequest :=
  { id := 1, player_name := "bob", player_uuid := none, wallet_address := "addr-2",
    amount := "2", currency := "LTC", status := .rejected, created_at := 0,
    updated_at := 1, metadata := [], discord_message_id := none,
    approved_by := some "admin", approved_by_id := some 9,
    transaction_id := none, failure_reason := some "policy" }

def c2State : StoreState := { rows := [c2Row], nextId := 2 }

/-- C2, witness: a concrete rejected request; approval fails fast with
InvalidState and makes zero wallet calls. -/
theorem approve_terminal_fails_no_payment_witness :
    getRow c2State 1 = some c2Row ∧ terminal c2Row.status ∧
    approve_request c2State 5 6 1 "admin" 9 (fun _ => .ok "tx") =
      { result := .error (.store (.invalidState 1 c2Row.status)), state := c2State,
        walletCalls := 0 } :=
  ⟨by decide, by decide,
   approve_terminal_fails_no_payment c2State 5 6 1 c2Row "admin" 9 (fun _ => .ok "tx")
     (by decide) (by decide)⟩

/-- C9: a request stuck in processing cannot be approved through the Manager —
approve_request fails with InvalidState and never calls the executor, because
mark_processing requires status pending — even though the Store's
mark_approved precondition itself accepts a processing request. -/
theorem approve_processing_blocked (s : StoreState) (now1 now2 now3 : Nat)
    (rid : Nat) (r : WithdrawalRequest) (an an2 : String) (ai ai2 : Int) (tx : String)
    (send_payment : WithdrawalRequest → Except String String)
    (hg : getRow s rid = some r) (hst : r.status = .processing) :
    approve_request s now1 now2 rid an ai send_payment =
      { result := .error (.store (.invalidState rid r.status)), state := s,
        walletCalls := 0 } ∧
    ∃ a s2, mark_approved s now3 rid an2 ai2 tx = .ok (a, s2) ∧ a.status = .approved := by
  constructor
  · have hnp : ¬ r.status = .pending := by rw [hst]; intro hc; cases hc
    unfold approve_request
    rw [mark_processing_not_pending hg hnp]
  · exact ⟨_, _, mark_approved_ok hg (Or.inr hst), rfl⟩

def c9Row : WithdrawalRequest :=
  { id := 1, player_name := "dan", player_uuid := none, wallet_address := "addr-9",
    amount := "9", currency := "BTC", status := .processing, created_at := 0,
    updated_at := 1, metadata := [], discord_message_id := none,
    approved_by := none, approved_by_id := none,
    transaction_id := none, failure_reason := none }

def c9State : StoreState := { rows := [c9Row], nextId := 2 }

/-- C9, witness: a concrete processing request; the Manager is blocked but the
Store's mark_approved would accept it. -/
theorem approve_processing_blocked_witness :
    getRow c9State 1 = some c9Row ∧ c9Row.status = .processing ∧
    (approve_request c9State 5 6 1 "admin" 2 (fun _ => .ok "tx") =
      { result := .error (.store (.invalidState 1 c9Row.status)), state := c9State,
        walletCalls := 0 } ∧
     ∃ a s2, mark_approved c9State 7 1 "admin" 2 "tx-9" = .ok (a, s2) ∧
       a.status = .approved) :=
  ⟨by decide, by decide,
   approve_processing_blocked c9State 5 6 7 1 c9Row "admin" "admin" 2 2 "tx-9"
     (fun _ => .ok "tx") (by decide) (by decide)⟩

/-- C10: set_discord_message on an existing request changes only the Discord
message reference and the last-update timestamp; every other field of the
request is unchanged. -/
theorem set_discord_message_frame (s : StoreState) (now : Nat) (rid : Nat)
    (mid : Int) (r : WithdrawalRequest) (hg : getRow s rid = some r) :
    ∃ r' s', set_discord_message s now rid mid = .ok (r', s') ∧
      r'.discord_message_id = some mid ∧ r'.updated_at = now ∧
      r'.id = r.id ∧ r'.player_name = r.player_name ∧ r'.player_uuid = r.player_uuid ∧
      r'.wallet_address = r.wallet_address ∧ r'.amount = r.amount ∧
      r'.currency = r.currency ∧ r'.status = r.status ∧ r'.created_at = r.created_at ∧
      r'.metadata = r.metadata ∧ r'.approved_by = r.approved_by ∧
      r'.approved_by_id = r.approved_by_id ∧ r'.transaction_id = r.transaction_id ∧
      r'.failure_reason = r.failure_reason :=
  ⟨_, _, set_discord_message_some hg,
   rfl, rfl, rfl, rfl, rfl, rfl, rfl, rfl, rfl, rfl, rfl, rfl, rfl, rfl, rfl⟩

def c10Row : WithdrawalRequest :=
  { id := 1, player_name := "eve", player_uuid := some "u-1", wallet_address := "addr-10",
    amount := "0.5", currency := "BTC", status := .pending, created_at := 0,
    updated_at := 0, metadata := [("memo", "hi")], discord_message_id := none,
    approved_by := none, approved_by_id := none,
    transaction_id := none, failure_reason := none }

def c10State : StoreState := { rows := [c10Row], nextId := 2 }

/-- C10, witness: attaching a message id to a concrete pending request. -/
theorem set_discord_message_frame_witness :
    getRow c10State 1 = some c10Row ∧
    ∃ r' s', set_discord_message c10State 4 1 99 = .ok (r', s') ∧
      r'.discord_message_id = some 99 ∧ r'.updated_at = 4 ∧
      r'.id = c10Row.id ∧ r'.player_name = c10Row.player_name ∧
      r'.player_uuid = c10Row.player_uuid ∧
      r'.wallet_address = c10Row.wallet_address ∧ r'.amount = c10Row.amount ∧
      r'.currency = c10Row.currency ∧ r'.status = c10Row.status ∧
      r'.created_at = c10Row.created_at ∧
      r'.metadata = c10Row.metadata ∧ r'.approved_by = c10Row.approved_by ∧
      r'.approved_by_id = c10Row.approved_by_id ∧
      r'.transaction_id = c10Row.transaction_id ∧
      r'.failure_reason = c10Row.failure_reason :=
  ⟨by decide, set_discord_message_frame c10State 4 1 99 c10Row (by decide)⟩

/-- C6: a successful create returns a pending request with no transaction id,
no failure reason, no approving actor, no message reference, and the
supplied/assigned identity, timestamps, amount, currency, address, and
metadata; the row is appended to the table and the counter advances. -/
theorem create_request_initial_row (s : StoreState) (now : Nat)
    (pn : String) (pu : Option String) (wa amt cur : String)
    (md : List (String × String))
    (hID : ∀ r ∈ s.rows, r.id < s.nextId) :
    ∃ r, create_request s now pn pu wa amt cur md =
        (some r, { rows := s.rows ++ [r], nextId := s.nextId + 1 }) ∧
      r.status = .pending ∧ r.transaction_id = none ∧ r.failure_reason = none ∧
      r.approved_by = none ∧ r.approved_by_id = none ∧ r.discord_message_id = none ∧
      r.id = s.nextId ∧ r.created_at = now ∧ r.updated_at = now ∧
      r.player_name = pn ∧ r.player_uuid = pu ∧ r.wallet_address = wa ∧
      r.amount = amt ∧ r.currency = cur ∧ r.metadata = md :=
  ⟨_, create_request_closed s now pn pu wa amt cur md hID,
   rfl, rfl, rfl, rfl, rfl, rfl, rfl, rfl, rfl, rfl, rfl, rfl, rfl, rfl, rfl⟩

/-- C6, witness: creating a request in a fresh store. -/
theorem create_request_initial_row_witness :
    (∀ r ∈ initialState.rows, r.id < initialState.nextId) ∧
    ∃ r, create_request initialState 5 "alice" none "addr" "1.5" "BTC" [] =
        (some r, { rows := initialState.rows ++ [r],
                   nextId := initialState.nextId + 1 }) ∧
      r.status = .pending ∧ r.transaction_id = none ∧ r.failure_reason = none ∧
      r.approved_by = none ∧ r.approved_by_id = none ∧ r.discord_message_id = none ∧
      r.id = initialState.nextId ∧ r.created_at = 5 ∧ r.updated_at = 5 ∧
      r.player_name = "alice" ∧ r.player_uuid = none ∧ r.wallet_address = "addr" ∧
      r.amount = "1.5" ∧ r.currency = "BTC" ∧ r.metadata = [] :=
  ⟨by decide, create_request_initial_row initialState 5 "alice" none "addr" "1.5" "BTC" []
    (by decide)⟩

/-- C7: list_requests with a status filter returns only rows with that status,
returns at most limit rows, and orders results newest-first by creation time. -/
theorem list_requests_filter_limit_order (s : StoreState) (st : WithdrawalStatus)
    (stOpt : Option WithdrawalStatus) (limit : Nat) :
    (∀ r ∈ list_requests s (some st) limit, r.status = st) ∧
    (list_requests s stOpt limit).length ≤ limit ∧
    (list_requests s stOpt limit).Pairwise (fun a b => b.created_at ≤ a.created_at) :=
  ⟨fun _ hr => selectRows_status hr, selectRows_length _ _ _, selectRows_sorted _ _ _⟩

def c7Row1 : WithdrawalRequest :=
  { id := 1, player_name := "kim", player_uuid := none, wallet_address := "a-1",
    amount := "1", currency := "BTC", status := .pending, created_at := 5,
    updated_at := 5, metadata := [], discord_message_id := none,
    approved_by := none, approved_by_id := none,
    transaction_id := none, failure_reason := none }

def c7Row2 : WithdrawalRequest :=
  { id := 2, player_name := "lee", player_uuid := none, wallet_address := "a-2",
    amount := "2", currency := "BTC", status := .approved, created_at := 9,
    updated_at := 10, metadata := [], discord_message_id := none,
    approved_by := some "admin", approved_by_id := some 3,
    transaction_id := some "tx-7", failure_reason := none }

def c7State : StoreState := { rows := [c7Row1, c7Row2], nextId := 3 }

/-- C7, witness: a concrete two-row store with a pending filter and limit 1. -/
theorem list_requests_filter_limit_order_witness :
    (∀ r ∈ list_requests c7State (some .pending) 1, r.status = .pending) ∧
    (list_requests c7State (some .pending) 1).length ≤ 1 ∧
    (list_requests c7State (some .pending) 1).Pairwise
      (fun a b => b.created_at ≤ a.created_at) :=
  list_requests_filter_limit_order c7State .pending (some .pending) 1

/-- C4: when mark_processing succeeds and the payment executor then fails with
message msg, the Manager persists the failure via mark_failed(rid, msg) — the
request ends failed with that reason readable back from the store — and raises
WalletError("Wallet transfer failed") chained from the original message. -/
theorem approve_payment_failure_marks_failed (s : StoreState) (now1 now2 : Nat)
    (rid : Nat) (an : String) (ai : Int)
    (send_payment : WithdrawalRequest → Except String String)
    (p : WithdrawalRequest) (s1 : StoreState) (msg : String)
    (h1 : mark_processing s now1 rid = .ok (p, s1))
    (h2 : send_payment p = .error msg) :
    ∃ f s2, mark_failed s1 now2 rid msg = .ok (f, s2) ∧
      approve_request s now1 now2 rid an ai send_payment =
        { result := .error (.wallet "Wallet transfer failed" msg), state := s2,
          walletCalls := 1 } ∧
      f.status = .failed ∧ f.failure_reason = some msg ∧ getRow s2 rid = some f := by
  have hg1 : getRow s1 rid = some p := by
    obtain ⟨model, hg, hp, hpe, hs1⟩ := mark_processing_ok_inv h1
    subst hs1
    subst hpe
    exact getRow_map_update _ (fun x => rfl) hg
  have hmf := @mark_failed_some s1 now2 rid msg p hg1
  refine ⟨_, _, hmf, ?_, rfl, rfl, ?_⟩
  · unfold approve_request
    rw [h1]
    show ((match send_payment p with
          | .error exc =>
            match mark_failed s1 now2 rid exc with
            | .error e => { result := .error (.store e), state := s1, walletCalls := 1 }
            | .ok (_, s2) =>
              { result := .error (.wallet "Wallet transfer failed" exc), state := s2,
                walletCalls := 1 }
          | .ok transaction_id =>
            match mark_approved s1 now2 rid an ai transaction_id with
            | .error e => { result := .error (.store e), state := s1, walletCalls := 1 }
            | .ok (approved, s2) =>
              { result := .ok approved, state := s2, walletCalls := 1 }) : ApproveOutcome) = _
    rw [h2]
    show ((match mark_failed s1 now2 rid msg with
          | .error e => { result := .error (.store e), state := s1, walletCalls := 1 }
          | .ok (_, s2) =>
            { result := .error (.wallet "Wallet transfer failed" msg), state := s2,
              walletCalls := 1 }) : ApproveOutcome) = _
    rw [hmf]
  · exact getRow_map_update _ (fun x => rfl) hg1

def c4Row : WithdrawalRequest :=
  { id := 1, player_name := "pat", player_uuid := none, wallet_address := "addr-4",
    amount := "4", currency := "BTC", status := .pending, created_at := 0,
    updated_at := 0, metadata := [], discord_message_id := none,
    approved_by := none, approved_by_id := none,
    transaction_id := none, failure_reason := none }

def c4State : StoreState := { rows := [c4Row], nextId := 2 }

def c4Proc : WithdrawalRequest := { c4Row with status := .processing, updated_at := 3 }

def c4S1 : StoreState := { rows := [c4Proc], nextId := 2 }

/-- C4, witness: a concrete pending request approved against an executor that
always raises "boom". -/
theorem approve_payment_failure_marks_failed_witness :
    mark_processing c4State 3 1 = .ok (c4Proc, c4S1) ∧
    (fun _ : WithdrawalRequest => (.error "boom" : Except String String)) c4Proc
      = .error "boom" ∧
    ∃ f s2, mark_failed c4S1 7 1 "boom" = .ok (f, s2) ∧
      approve_request c4State 3 7 1 "admin" 8
          (fun _ => (.error "boom" : Except String String)) =
        { result := .error (.wallet "Wallet transfer failed" "boom"), state := s2,
          walletCalls := 1 } ∧
      f.status = .failed ∧ f.failure_reason = some "boom" ∧ getRow s2 1 = some f :=
  ⟨rfl, rfl,
   approve_payment_failure_marks_failed c4State 3 7 1 "admin" 8
     (fun _ => (.error "boom" : Except String String)) c4Proc c4S1 "boom"
     rfl rfl⟩

/-- C5: the Manager's create_request invokes every registered observer with the
new request in registration order; a raising callback never prevents the
remaining callbacks from running; and the newly created request is returned
regardless of the observer outcomes. -/
theorem create_request_notifies_all_listeners (s : StoreState) (now : Nat)
    (listeners : List Listener) (pn : String) (pu : Option String)
    (wa amt cur : String) (md : List (String × String))
    (hID : ∀ r ∈ s.rows, r.id < s.nextId) :
    ∃ req s1,
      create_request s now pn pu wa amt cur md = (some req, s1) ∧
      manager_create_request s now listeners pn pu wa amt cur md =
        (some (req, notify_new_request listeners req), s1) ∧
      notify_new_request listeners req = listeners.map (fun l => l req) ∧
      (∀ pre l post, listeners = pre ++ l :: post →
        notify_new_request listeners req =
          notify_new_request pre req ++ l req :: notify_new_request post req) := by
  have hc := create_request_closed s now pn pu wa amt cur md hID
  refine ⟨_, _, hc, ?_, notify_new_request_map _ _, ?_⟩
  · unfold manager_create_request
    rw [hc]
  · intro pre l post hsplit
    subst hsplit
    rw [notify_new_request_map, notify_new_request_map, notify_new_request_map,
      List.map_append, List.map_cons]

def c5Listeners : List Listener :=
  [fun _ => none, fun _ => some "boom", fun _ => none]

/-- C5, witness: three concrete listeners, the middle one raising; all three
run in order and creation still returns the request. -/
theorem create_request_notifies_all_listeners_witness :
    (∀ r ∈ initialState.rows, r.id < initialState.nextId) ∧
    ∃ req s1,
      create_request initialState 2 "may" none "addr-5" "5" "BTC" [] = (some req, s1) ∧
      manager_create_request initialState 2 c5Listeners "may" none "addr-5" "5" "BTC" [] =
        (some (req, notify_new_request c5Listeners req), s1) ∧
      notify_new_request c5Listeners req = c5Listeners.map (fun l => l req) ∧
      (∀ pre l post, c5Listeners = pre ++ l :: post →
        notify_new_request c5Listeners req =
          notify_new_request pre req ++ l req :: notify_new_request post req) :=
  ⟨by decide,
   create_request_notifies_all_listeners initialState 2 c5Listeners "may" none
     "addr-5" "5" "BTC" [] (by decide)⟩

def c1Ops : List StoreOp :=
  [.create 0 "alice" none "addr-1" "1.5" "BTC" [],
   .markApproved 1 1 "admin" 7 "tx-1",
   .markFailed 2 1 "boom"]

def c1Row : WithdrawalRequest :=
  { id := 1, player_name := "alice", player_uuid := none, wallet_address := "addr-1",
    amount := "1.5", currency := "BTC", status := .failed, created_at := 0,
    updated_at := 2, metadata := [], discord_message_id := none,
    approved_by := some "admin", approved_by_id := some 7,
    transaction_id := some "tx-1", failure_reason := some "boom" }

/-- C1, counterexample: the iff fails on the code — create, approve, then
mark_failed (which has no status precondition and does not clear the
transaction id) reaches a failed request that still carries its transaction
identifier. -/
theorem txid_iff_approved_cex :
    ¬ ∀ (ops : List StoreOp), ∀ r ∈ (runOps initialState ops).rows,
        (r.transaction_id.isSome = true ↔ r.status = .approved) := by
  intro h
  have hmem : c1Row ∈ (runOps initialState c1Ops).rows := by decide
  have hiff := h c1Ops c1Row hmem
  have : c1Row.status = .approved := hiff.mp rfl
  exact absurd this (by decide)

/-- C1, amended: over every state reachable by store operations, an approved
request always carries a transaction identifier, and a carried transaction
identifier implies status approved or failed (never pending, processing, or
rejected); the failed-with-identifier case arises only from mark_failed
overwriting an approved request. -/
theorem txid_iff_approved_amended (ops : List StoreOp) (r : WithdrawalRequest)
    (hr : r ∈ (runOps initialState ops).rows) :
    (r.status = .approved → r.transaction_id.isSome = true) ∧
    (r.transaction_id.isSome = true → r.status = .approved ∨ r.status = .failed) :=
  (StateInv_runOps initialState ops StateInv_initial).2.2 r hr

/-- C1, witness for the amended invariant at the concrete reachable state of
the counterexample run. -/
theorem txid_iff_approved_amended_witness :
    (c1Row ∈ (runOps initialState c1Ops).rows) ∧
    ((c1Row.status = .approved → c1Row.transaction_id.isSome = true) ∧
     (c1Row.transaction_id.isSome = true →
       c1Row.status = .approved ∨ c1Row.status = .failed)) :=
  ⟨by decide, txid_iff_approved_amended c1Ops c1Row (by decide)⟩

def c3Ops : List StoreOp :=
  [.create 0 "carol" none "addr-3" "3" "ETH" [],
   .markApproved 1 1 "admin" 4 "tx-3"]

def c3ApprovedRow : WithdrawalRequest :=
  { id := 1, player_name := "carol", player_uuid := none, wallet_address := "addr-3",
    amount := "3", currency := "ETH", status := .approved, created_at := 0,
    updated_at := 1, metadata := [], discord_message_id := none,
    approved_by := some "admin", approved_by_id := some 4,
    transaction_id := some "tx-3", failure_reason := none }

def c3FailedRow : WithdrawalRequest :=
  { c3ApprovedRow with status := .failed, failure_reason := some "late", updated_at := 2 }

/-- C3, counterexample: mark_failed is a store operation that moves a
terminal (approved) request to failed, so "no transition out of a terminal
state" fails on the code. -/
theorem terminal_frozen_cex :
    ¬ ∀ (ops : List StoreOp) (op : StoreOp) (r : WithdrawalRequest),
        r ∈ (runOps initialState ops).rows → terminal r.status →
        ∀ r' ∈ (applyOp (runOps initialState ops) op).rows, r'.id = r.id →
          r'.status = r.status := by
  intro h
  have := h c3Ops (.markFailed 2 1 "late") c3ApprovedRow (by decide) (by decide)
      c3FailedRow (by decide) (by decide)
  exact absurd this (by decide)

/-- C3, amended: every store operation other than mark_failed leaves the
status of a terminal request unchanged (create appends a fresh row;
set_discord_message never touches status; the three guarded transitions
reject any terminal source); only mark_failed can move a terminal request,
to failed. -/
theorem terminal_frozen_amended (s : StoreState) (op : StoreOp)
    (r r' : WithdrawalRequest)
    (hs : StateInv s) (hmem : r ∈ s.rows) (hterm : terminal r.status)
    (hop : op.isMarkFailed = false)
    (hmem' : r' ∈ (applyOp s op).rows) (hid : r'.id = r.id) :
    r'.status = r.status := by
  have hterm_not : ∀ h1 : r.status = .pending ∨ r.status = .processing, False := by
    intro h1
    rcases hterm with h | h | h <;> rcases h1 with h2 | h2 <;> rw [h] at h2 <;> cases h2
  cases op with
  | create now pn pu wa amt cur md =>
    have hmem2 : r' ∈ s.rows ++
        [{ id := s.nextId, player_name := pn, player_uuid := pu, wallet_address := wa,
           amount := amt, currency := cur, status := .pending, created_at := now,
           updated_at := now, metadata := md, discord_message_id := none,
           approved_by := none, approved_by_id := none, transaction_id := none,
           failure_reason := none }] := hmem'
    rcases List.mem_append.mp hmem2 with h | h
    · rw [mem_id_unique hs.2.1 h hmem hid]
    · exfalso
      have hnid : r'.id = s.nextId := by rw [List.mem_singleton.mp h]
      rw [hid] at hnid
      exact absurd hnid (Nat.ne_of_lt (hs.1 r hmem))
  | setMsg now rid mid =>
    cases h : set_discord_message s now rid mid with
    | error e =>
      have happ : applyOp s (.setMsg now rid mid) = s := by simp [applyOp, h]
      rw [happ] at hmem'
      rw [mem_id_unique hs.2.1 hmem' hmem hid]
    | ok pr =>
      obtain ⟨p, s1⟩ := pr
      obtain ⟨model, hg, hpe, hs1⟩ := set_discord_message_ok_inv h
      have happ : applyOp s (.setMsg now rid mid) = s1 := by simp [applyOp, h]
      rw [happ, hs1] at hmem'
      exact map_update_status_preserved
        (fun x => { x with discord_message_id := some mid, updated_at := now })
        (fun x => rfl) (fun x => rfl) hs.2.1 hmem hmem' hid
  | markProcessing now rid =>
    cases h : mark_processing s now rid with
    | error e =>
      have happ : applyOp s (.markProcessing now rid) = s := by simp [applyOp, h]
      rw [happ] at hmem'
      rw [mem_id_unique hs.2.1 hmem' hmem hid]
    | ok pr =>
      obtain ⟨p, s1⟩ := pr
      obtain ⟨model, hg, hp, hpe, hs1⟩ := mark_processing_ok_inv h
      have happ : applyOp s (.markProcessing now rid) = s1 := by simp [applyOp, h]
      rw [happ, hs1] at hmem'
      by_cases hrid : r.id = rid
      · exfalso
        have hrm : r = model := mem_findRid_unique hs.2.1 hmem hrid hg
        exact hterm_not (Or.inl (by rw [hrm]; exact hp))
      · rw [map_update_untargeted
          (fun x => { x with status := .processing, updated_at := now })
          (fun x => rfl) hs.2.1 hmem hmem' hid hrid]
  | markApproved now rid an ai tx =>
    cases h : mark_approved s now rid an ai tx with
    | error e =>
      have happ : applyOp s (.markApproved now rid an ai tx) = s := by simp [applyOp, h]
      rw [happ] at hmem'
      rw [mem_id_unique hs.2.1 hmem' hmem hid]
    | ok pr =>
      obtain ⟨p, s1⟩ := pr
      obtain ⟨model, hg, hp, hpe, hs1⟩ := mark_approved_ok_inv h
      have happ : applyOp s (.markApproved now rid an ai tx) = s1 := by simp [applyOp, h]
      rw [happ, hs1] at hmem'
      by_cases hrid : r.id = rid
      · exfalso
        have hrm : r = model := mem_findRid_unique hs.2.1 hmem hrid hg
        refine hterm_not ?_
        rw [hrm]
        exact hp
      · rw [map_update_untargeted
          (fun x =>
            { x with
              status := .approved
              approved_by := some an
              approved_by_id := some ai
              transaction_id := some tx
              failure_reason := none
              updated_at := now })
          (fun x => rfl) hs.2.1 hmem hmem' hid hrid]
  | markRejected now rid an ai reason =>
    cases h : mark_rejected s now rid an ai reason with
    | error e =>
      have happ : applyOp s (.markRejected now rid an ai reason) = s := by
        simp [applyOp, h]
      rw [happ] at hmem'
      rw [mem_id_unique hs.2.1 hmem' hmem hid]
    | ok pr =>
      obtain ⟨p, s1⟩ := pr
      obtain ⟨model, hg, hp, hpe, hs1⟩ := mark_rejected_ok_inv h
      have happ : applyOp s (.markRejected now rid an ai reason) = s1 := by
        simp [applyOp, h]
      rw [happ, hs1] at hmem'
      by_cases hrid : r.id = rid
      · exfalso
        have hrm : r = model := mem_findRid_unique hs.2.1 hmem hrid hg
        refine hterm_not ?_
        rw [hrm]
        exact hp
      · rw [map_update_untargeted
          (fun x =>
            { x with
              status := .rejected
              approved_by := some an
              approved_by_id := some ai
              failure_reason := reason
              updated_at := now })
          (fun x => rfl) hs.2.1 hmem hmem' hid hrid]
  | markFailed now rid reason => exact Bool.noConfusion hop

def c3WState : StoreState := { rows := [c3ApprovedRow], nextId := 2 }

def c3WRow : WithdrawalRequest :=
  { c3ApprovedRow with discord_message_id := some 99, updated_at := 5 }

/-- C3, witness for the amended statement: attaching a message reference to a
concrete approved request leaves its status approved. -/
theorem terminal_frozen_amended_witness :
    StateInv c3WState ∧ c3ApprovedRow ∈ c3WState.rows ∧ terminal c3ApprovedRow.status ∧
    (StoreOp.setMsg 5 1 99).isMarkFailed = false ∧
    c3WRow ∈ (applyOp c3WState (.setMsg 5 1 99)).rows ∧ c3WRow.id = c3ApprovedRow.id ∧
    c3WRow.status = c3ApprovedRow.status :=
  ⟨by decide, by decide, by decide, rfl, by decide, rfl,
   terminal_frozen_amended c3WState (.setMsg 5 1 99) c3ApprovedRow c3WRow
     (by decide) (by decide) (by decide) rfl (by decide) rfl⟩

/-- C8, counterexample: extraction is not first-match-wins over *presence* —
a response whose transaction_id field is present but holds the empty string
is skipped by the Python or-chain (code returns the txid field instead of the
present transaction_id value). -/
theorem http_first_present_cex :
    ¬ ∀ (resp : HttpResponse), resp.status < 400 →
        ∀ v, specFirstPresent resp.data = some v →
          http_send_payment resp = .ok (pyStr v) := by
  intro h
  have := h ⟨200, "", [("transaction_id", .str ""), ("txid", .str "t-2")]⟩ (by decide)
      (.str "") (by decide)
  exact absurd this (by decide)

/-- C8, amended: a response status ≥ 400 raises PaymentError carrying the
stripped response body; otherwise the transaction identifier is the first
*truthy* (non-empty, non-zero, non-null) value among transaction_id, txid,
id, and PaymentError is raised when no field holds a truthy value (a field
that is present but falsy is skipped). -/
theorem http_send_payment_amended (resp : HttpResponse) :
    (400 ≤ resp.status →
      http_send_payment resp =
        .error ("Wallet request failed with status " ++ toString resp.status ++ ": "
          ++ resp.body.trim)) ∧
    (resp.status < 400 →
      (∀ v, firstTruthyField resp.data = some v →
        http_send_payment resp = .ok (pyStr v)) ∧
      (firstTruthyField resp.data = none →
        http_send_payment resp = .error "Wallet response missing transaction identifier")) := by
  constructor
  · intro h400
    unfold http_send_payment
    rw [if_pos h400]
  · intro hlt
    have hnot : ¬ 400 ≤ resp.status := Nat.not_le.mpr hlt
    constructor
    · intro v hv
      unfold http_send_payment
      rw [if_neg hnot, pyOr_chain_truthy]
      unfold firstTruthyField at hv
      rw [hv]
    · intro hv
      unfold http_send_payment
      rw [if_neg hnot, pyOr_chain_truthy]
      unfold firstTruthyField at hv
      rw [hv]

/-- C8, witness: a 500 response raises the body-carrying error; a 200 response
with a numeric txid field yields its string form. -/
theorem http_send_payment_amended_witness :
    http_send_payment ⟨500, " oops ", []⟩ =
      .error ("Wallet request failed with status " ++ toString (500 : Nat) ++ ": "
        ++ (" oops ").trim) ∧
    http_send_payment ⟨200, "", [("txid", .num 7)]⟩ = .ok "7" := by
  constructor
  · exact (http_send_payment_amended ⟨500, " oops ", []⟩).1 (by decide)
  · exact ((http_send_payment_amended ⟨200, "", [("txid", .num 7)]⟩).2
      (by decide)).1 (.num 7) (by decide)
